import Mathlib

/-!
Verification development for the markdown-it-editor repository.

The repository is a browser editor suite with three surfaces:
* `MarkdownEditor` (plain markdown, namespace `markdown-editor-content`),
* `EChartsEditor` (chart specs, namespace `echarts-editor-content`),
* `MultiContentEditor` (JSON block lists, namespace `multi-content-editor`),
and a second, file-list variant of `MarkdownEditor` sharing the
`markdown-editor-content` namespace.

This file embeds, directly from the source:
* the browser key-value store (`Store`, `getItem`, `setItem`, `removeItem`),
* `JSON.parse` / the relevant fragment of `JSON.stringify` (the external
  JSON codec the editors call; numbers are modelled exactly as rationals,
  so double rounding and `NaN` are outside the model),
* the `MultiContentEditor` parse/preview effect and its chart-handle
  render pass (dispose previous handles, re-create one per chart block),
* the per-block render dispatch (`chart` / `markdown` / unknown marker),
* `loadSavedFiles` for the multi-content and file-list markdown editors,
* save effects, the 30 s auto-save interval tick, filename renames, and
  the transient save-status clear timers.
-/

/-! ### JSON values -/

/-- A JSON value, as produced by `JSON.parse`.  Numbers are exact rationals
(every JSON number literal denotes one); JS double rounding is not modelled. -/
inductive Json where
  | null
  | bool (b : Bool)
  | num (q : Rat)
  | str (s : String)
  | arr (items : List Json)
  | obj (fields : List (String × Json))

instance : Inhabited Json := ⟨Json.null⟩

/-- JS property read `j[k]` for parsed values: only objects have own
properties; with duplicate keys the later member wins (object-literal
semantics).  `none` is JS `undefined`.  (Reading a property of `null`
throws in JS; callers model that case explicitly.) -/
def jsonGet (j : Json) (k : String) : Option Json :=
  match j with
  | Json.obj fields => fields.foldl (fun acc kv => if kv.1 = k then some kv.2 else acc) none
  | _ => none

/-- JS truthiness of a parsed JSON value (`undefined` is handled by callers;
`NaN` cannot arise since numbers are exact rationals here). -/
def jsTruthy : Json → Bool
  | Json.null => false
  | Json.bool b => b
  | Json.num q => q ≠ 0
  | Json.str s => s ≠ ""
  | Json.arr _ => true
  | Json.obj _ => true

/-! ### JSON.parse

`JSON.parse` is external to the repository (a browser builtin); it is
embedded here as a total, kernel-evaluable parser of the RFC 8259 grammar:
a defunctionalized loop (explicit stack of open arrays/objects) that is
structurally recursive on a fuel counter.  Every loop step consumes at
least one input character, so `input length + 2` fuel never runs out on
real inputs.  Error messages are diagnostic text only; the code under
test never inspects them beyond display. -/

def jsonWs (c : Char) : Bool := c = ' ' || c = '\t' || c = '\n' || c = '\r'

def skipWs : List Char → List Char
  | c :: cs => if jsonWs c then skipWs cs else c :: cs
  | [] => []

def openBraceC : Char := Char.ofNat 123
def closeBraceC : Char := Char.ofNat 125

def hexVal (c : Char) : Option Nat :=
  if '0' ≤ c ∧ c ≤ '9' then some (c.toNat - '0'.toNat)
  else if 'a' ≤ c ∧ c ≤ 'f' then some (c.toNat - 'a'.toNat + 10)
  else if 'A' ≤ c ∧ c ≤ 'F' then some (c.toNat - 'A'.toNat + 10)
  else none

def escCharMap (c : Char) : Option Char :=
  if c = '\"' then some '\"'
  else if c = '\\' then some '\\'
  else if c = '/' then some '/'
  else if c = 'b' then some (Char.ofNat 8)
  else if c = 'f' then some (Char.ofNat 12)
  else if c = 'n' then some '\n'
  else if c = 'r' then some '\r'
  else if c = 't' then some '\t'
  else none

/-- String body after the opening quote: returns the decoded characters and
the input after the closing quote.  (`\uXXXX` escapes decode to the scalar
with that code; surrogate-pair recombination is outside the model.) -/
def parseStrBody : List Char → Except String (List Char × List Char)
  | [] => Except.error "Unterminated string in JSON"
  | c :: rest =>
    if c = '\"' then Except.ok ([], rest)
    else if c = '\\' then
      match rest with
      | [] => Except.error "Unterminated string in JSON"
      | e :: r2 =>
        if e = 'u' then
          match r2 with
          | a :: b :: c2 :: d :: r3 =>
            match hexVal a, hexVal b, hexVal c2, hexVal d with
            | some ha, some hb, some hc, some hd =>
              (parseStrBody r3).map
                (fun p => (Char.ofNat (((ha * 16 + hb) * 16 + hc) * 16 + hd) :: p.1, p.2))
            | _, _, _, _ => Except.error "Bad Unicode escape in JSON"
          | _ => Except.error "Bad Unicode escape in JSON"
        else
          match escCharMap e with
          | some ec => (parseStrBody r2).map (fun p => (ec :: p.1, p.2))
          | none => Except.error "Bad escaped character in JSON string"
    else if c.toNat < 32 then Except.error "Bad control character in JSON string"
    else (parseStrBody rest).map (fun p => (c :: p.1, p.2))

def takeDigits (l : List Char) : List Char × List Char :=
  match l with
  | c :: cs => if c.isDigit then let p := takeDigits cs; (c :: p.1, p.2) else ([], c :: cs)
  | [] => ([], [])

def digitsToNat (ds : List Char) : Nat :=
  ds.foldl (fun n c => n * 10 + (c.toNat - '0'.toNat)) 0

def pow10 (e : Int) : Rat :=
  if 0 ≤ e then ((10 : Rat)) ^ e.toNat else 1 / ((10 : Rat)) ^ (-e).toNat

/-- JSON number grammar: `-? (0 | [1-9][0-9]*) (. [0-9]+)? ([eE][+-]?[0-9]+)?`,
evaluated exactly as a rational. -/
def parseNum (l : List Char) : Except String (Rat × List Char) :=
  let p0 : Bool × List Char :=
    match l with
    | c :: rest => if c = '-' then (true, rest) else (false, l)
    | [] => (false, l)
  match p0.2 with
  | [] => Except.error "Unexpected end of JSON input"
  | c :: rest =>
    if ¬ c.isDigit then Except.error "Unexpected token in JSON number"
    else
      let pInt : List Char × List Char :=
        if c = '0' then ([c], rest) else takeDigits (c :: rest)
      let pFrac : Except String (List Char × List Char) :=
        match pInt.2 with
        | d :: r2 =>
          if d = '.' then
            let fs := takeDigits r2
            if fs.1.isEmpty then Except.error "Unterminated fractional number in JSON"
            else Except.ok fs
          else Except.ok ([], pInt.2)
        | [] => Except.ok ([], pInt.2)
      match pFrac with
      | Except.error e => Except.error e
      | Except.ok fr =>
        let pExp : Except String (Int × List Char) :=
          match fr.2 with
          | d :: r3 =>
            if d = 'e' ∨ d = 'E' then
              let sg : Int × List Char :=
                match r3 with
                | s :: r4 => if s = '+' then (1, r4) else if s = '-' then (-1, r4) else (1, r3)
                | [] => (1, r3)
              let es := takeDigits sg.2
              if es.1.isEmpty then Except.error "Exponent part is missing a number in JSON"
              else Except.ok (sg.1 * (digitsToNat es.1 : Int), es.2)
            else Except.ok (0, fr.2)
          | [] => Except.ok (0, fr.2)
        match pExp with
        | Except.error e => Except.error e
        | Except.ok ex =>
          let m : Nat := digitsToNat (pInt.1 ++ fr.1)
          let base : Rat := if p0.1 then -(m : Rat) else (m : Rat)
          Except.ok (base * pow10 (ex.1 - (fr.1.length : Int)), ex.2)

/-- An open composite during parsing: an array with the elements parsed so
far, or an object with the members parsed so far plus the key whose value
is being read. -/
inductive JFrame where
  | arrF (items : List Json)
  | objF (fields : List (String × Json)) (pendingKey : String)

/-- The parse loop.  `none` mode expects a value; `some v` mode has just
finished value `v` and closes or extends the innermost open composite. -/
def jloop : Nat → Option Json → List JFrame → List Char → Except String (Json × List Char)
  | 0, _, _, _ => Except.error "JSON input exhausted the parser fuel"
  | fuel + 1, none, stack, l =>
    match skipWs l with
    | [] => Except.error "Unexpected end of JSON input"
    | c :: rest =>
      if c = '[' then
        match skipWs rest with
        | c2 :: r2 =>
          if c2 = ']' then jloop fuel (some (Json.arr [])) stack r2
          else jloop fuel none (JFrame.arrF [] :: stack) rest
        | [] => Except.error "Unexpected end of JSON input"
      else if c = openBraceC then
        match skipWs rest with
        | c2 :: r2 =>
          if c2 = closeBraceC then jloop fuel (some (Json.obj [])) stack r2
          else if c2 = '\"' then
            match parseStrBody r2 with
            | Except.error e => Except.error e
            | Except.ok ks =>
              match skipWs ks.2 with
              | c3 :: r3 =>
                if c3 = ':' then
                  jloop fuel none (JFrame.objF [] (String.mk ks.1) :: stack) r3
                else Except.error "Expected colon after property name in JSON"
              | [] => Except.error "Unexpected end of JSON input"
          else Except.error "Expected property name in JSON object"
        | [] => Except.error "Unexpected end of JSON input"
      else if c = '\"' then
        match parseStrBody rest with
        | Except.error e => Except.error e
        | Except.ok ss => jloop fuel (some (Json.str (String.mk ss.1))) stack ss.2
      else if c = 't' then
        if ['r', 'u', 'e'].isPrefixOf rest then
          jloop fuel (some (Json.bool true)) stack (rest.drop 3)
        else Except.error "Unexpected token t in JSON"
      else if c = 'f' then
        if ['a', 'l', 's', 'e'].isPrefixOf rest then
          jloop fuel (some (Json.bool false)) stack (rest.drop 4)
        else Except.error "Unexpected token f in JSON"
      else if c = 'n' then
        if ['u', 'l', 'l'].isPrefixOf rest then
          jloop fuel (some Json.null) stack (rest.drop 3)
        else Except.error "Unexpected token n in JSON"
      else if c = '-' ∨ c.isDigit then
        match parseNum (c :: rest) with
        | Except.error e => Except.error e
        | Except.ok nq => jloop fuel (some (Json.num nq.1)) stack nq.2
      else Except.error ("Unexpected token " ++ String.mk [c] ++ " in JSON")
  | fuel + 1, some v, stack, l =>
    match stack with
    | [] => Except.ok (v, l)
    | JFrame.arrF items :: stack2 =>
      match skipWs l with
      | c :: rest =>
        if c = ',' then jloop fuel none (JFrame.arrF (items ++ [v]) :: stack2) rest
        else if c = ']' then jloop fuel (some (Json.arr (items ++ [v]))) stack2 rest
        else Except.error ("Unexpected token " ++ String.mk [c] ++ " in JSON")
      | [] => Except.error "Unexpected end of JSON input"
    | JFrame.objF fields key :: stack2 =>
      match skipWs l with
      | c :: rest =>
        if c = ',' then
          match skipWs rest with
          | c2 :: r2 =>
            if c2 = '\"' then
              match parseStrBody r2 with
              | Except.error e => Except.error e
              | Except.ok ks =>
                match skipWs ks.2 with
                | c3 :: r3 =>
                  if c3 = ':' then
                    jloop fuel none
                      (JFrame.objF (fields ++ [(key, v)]) (String.mk ks.1) :: stack2) r3
                  else Except.error "Expected colon after property name in JSON"
                | [] => Except.error "Unexpected end of JSON input"
            else Except.error "Expected property name in JSON object"
          | [] => Except.error "Unexpected end of JSON input"
        else if c = closeBraceC then
          jloop fuel (some (Json.obj (fields ++ [(key, v)]))) stack2 rest
        else Except.error ("Unexpected token " ++ String.mk [c] ++ " in JSON")
      | [] => Except.error "Unexpected end of JSON input"

/-- `JSON.parse`: parse one value, then require only whitespace after it. -/
def jsonParse (s : String) : Except String Json :=
  match jloop (s.length + 2) none [] s.data with
  | Except.error e => Except.error e
  | Except.ok vr =>
    match skipWs vr.2 with
    | [] => Except.ok vr.1
    | c :: _ =>
      Except.error ("Unexpected non-whitespace character " ++ String.mk [c] ++ " after JSON")

/-! ### JSON.stringify (the fragment the editors use)

Every editor persists `JSON.stringify({ text, lastModified })` with `text`
a string and `lastModified` an integer timestamp, so only string escaping
and integer printing are needed. -/

def hexDigit (n : Nat) : Char :=
  if n < 10 then Char.ofNat ('0'.toNat + n) else Char.ofNat ('a'.toNat + n - 10)

def escChar (c : Char) : List Char :=
  if c = '\"' then ['\\', '\"']
  else if c = '\\' then ['\\', '\\']
  else if c = '\n' then ['\\', 'n']
  else if c = '\r' then ['\\', 'r']
  else if c = '\t' then ['\\', 't']
  else if c = Char.ofNat 8 then ['\\', 'b']
  else if c = Char.ofNat 12 then ['\\', 'f']
  else if c.toNat < 32 then
    ['\\', 'u', '0', '0', hexDigit (c.toNat / 16), hexDigit (c.toNat % 16)]
  else [c]

def jsonStringifyStr (s : String) : String :=
  String.mk ('\"' :: (s.data.map escChar).flatten ++ ['\"'])

/-- `JSON.stringify({ text: t, lastModified: now })` as written by every
save path of the editors (key order as in the object literals). -/
def serializeContent (text : String) (now : Int) : String :=
  "\x7b\"text\":" ++ jsonStringifyStr text ++ ",\"lastModified\":" ++ toString now ++ "\x7d"

/-! ### The browser key-value store

`localStorage` modelled as an association list in key insertion order
(`localStorage.key(i)` enumerates in that order), with unique keys. -/

abbrev Store := List (String × String)

def getItem : Store → String → Option String
  | [], _ => none
  | kv :: rest, k => if kv.1 = k then some kv.2 else getItem rest k

def setItem : Store → String → String → Store
  | [], k, v => [(k, v)]
  | kv :: rest, k, v => if kv.1 = k then (k, v) :: rest else kv :: setItem rest k v

def removeItem : Store → String → Store
  | [], _ => []
  | kv :: rest, k => if kv.1 = k then rest else kv :: removeItem rest k

def storeKeys (s : Store) : List String := s.map Prod.fst

/-! ### Namespaced keys and the JS string operations the editors use -/

/-- The three `BASE_STORAGE_KEY` constants. -/
def mdBase : String := "markdown-editor-content"
def echartsBase : String := "echarts-editor-content"
def multiBase : String := "multi-content-editor"

/-- Storage key of the document named `n`: the source template is the
base key, a dash, then the name. -/
def docKey (base n : String) : String := base ++ "-" ++ n

/-- Storage key of the last-used-name record, `` `${BASE_STORAGE_KEY}-last-filename` ``. -/
def lastFilenameKey (base : String) : String := base ++ "-last-filename"

/-- JS `String.prototype.startsWith`. -/
def jsStartsWith (s p : String) : Bool := p.data.isPrefixOf s.data

/-- JS `String.prototype.endsWith`. -/
def jsEndsWith (s p : String) : Bool := p.data.isSuffixOf s.data

/-- JS `String.prototype.replace` with a string pattern: removes the first
occurrence of `p` (the editors always call it with replacement `''`). -/
def replaceFirstL : List Char → List Char → List Char
  | [], _ => []
  | c :: rest, p => if p.isPrefixOf (c :: rest) then (c :: rest).drop p.length
                    else c :: replaceFirstL rest p

def jsReplaceFirst (s p : String) : String := String.mk (replaceFirstL s.data p.data)

/-! ### loadSavedFiles

Both `MultiContentEditor.loadSavedFiles` and the file-list
`MarkdownEditor.loadSavedFiles` scan every storage key, keep keys in the
namespace other than the last-filename record, and read
`JSON.parse(content)?.lastModified || Date.now()`.  `JSON.parse` throws on
a non-parseable payload and the scan has no catch, so the whole listing
fails; `?.` and `||` only cover a parseable payload that is null or lacks
a truthy `lastModified`. -/

structure SavedFile where
  name : String
  lastModified : Json

/-- `JSON.parse(content)?.lastModified || Date.now()`, given a parsed payload. -/
def lmOf (j : Json) (now : Int) : Json :=
  match jsonGet j "lastModified" with
  | some v => if jsTruthy v then v else Json.num (now : Rat)
  | none => Json.num (now : Rat)

/-- The key filter `key?.startsWith(BASE_STORAGE_KEY) && !key.endsWith('last-filename')`. -/
def fileFilter (base k : String) : Bool :=
  jsStartsWith k base && !(jsEndsWith k "last-filename")

/-- Drop the `` `${BASE_STORAGE_KEY}-` `` prefix as the source does with
`key.replace`. -/
def stripBaseDash (base k : String) : String := jsReplaceFirst k (base ++ "-")

/-- The enumeration loop of `loadSavedFiles` (before sorting).  An entry
whose payload fails `JSON.parse` throws out of the loop. -/
def loadSavedFilesScan (base : String) (now : Int) : Store → Except String (List SavedFile)
  | [] => Except.ok []
  | kv :: rest =>
    if fileFilter base kv.1 then
      match jsonParse kv.2 with
      | Except.error e => Except.error e
      | Except.ok j =>
        match loadSavedFilesScan base now rest with
        | Except.error e => Except.error e
        | Except.ok fs => Except.ok ({ name := stripBaseDash base kv.1, lastModified := lmOf j now } :: fs)
    else loadSavedFilesScan base now rest

/-- Stable insertion sort: the unique stable sort for a total preorder
`le`, matching JS `Array.prototype.sort` (stable since ES2019) up to the
comparator. -/
def insertStable (le : α → α → Bool) (x : α) : List α → List α
  | [] => [x]
  | y :: ys => if le y x then y :: insertStable le x ys else x :: y :: ys

def sortStable (le : α → α → Bool) (l : List α) : List α :=
  l.foldl (fun acc x => insertStable le x acc) []

/-- JS `Number(...)` coercion on the values that can sit in `lastModified`.
`none` stands for `NaN`; string and composite coercions are corners the
claims never reach and are mapped to `NaN`. -/
def jsNumberOf : Json → Option Rat
  | Json.null => some 0
  | Json.bool b => some (if b then 1 else 0)
  | Json.num q => some q
  | Json.str _ => none
  | Json.arr _ => none
  | Json.obj _ => none

/-- `le` induced by the comparator `(a, b) => b.lastModified - a.lastModified`:
`a` may precede `b` iff the comparator is `≤ 0`; a `NaN` comparator value is
treated as equal by the sort, so both directions hold. -/
def lmDescLe (a b : SavedFile) : Bool :=
  match jsNumberOf b.lastModified, jsNumberOf a.lastModified with
  | some nb, some na => decide (nb ≤ na)
  | _, _ => true

/-- The file-list markdown editor sorts with
`(a, b) => b.filename - a.filename`, but the records carry `name`, not
`filename`: the comparator reads an absent field, yielding `NaN` on every
pair, which the sort treats as equality — a stable sort then leaves the
list in enumeration order. -/
def undefinedFieldLe (_ _ : SavedFile) : Bool := true

/-- `MultiContentEditor.loadSavedFiles` / `EChartsEditor.loadSavedFiles`:
scan, then sort by `lastModified` descending. -/
def loadSavedFilesSorted (base : String) (now : Int) (store : Store) :
    Except String (List SavedFile) :=
  (loadSavedFilesScan base now store).map (sortStable lmDescLe)

/-- The file-list `MarkdownEditor.loadSavedFiles`: scan, then the
no-op sort described at `undefinedFieldLe`. -/
def loadSavedFilesMd (now : Int) (store : Store) : Except String (List SavedFile) :=
  (loadSavedFilesScan mdBase now store).map (sortStable undefinedFieldLe)

/-- The listing the scan produces when every relevant payload parses. -/
def expectedFiles (base : String) (now : Int) (store : Store) : List SavedFile :=
  store.filterMap fun kv =>
    if fileFilter base kv.1 then
      match jsonParse kv.2 with
      | Except.ok j => some { name := stripBaseDash base kv.1, lastModified := lmOf j now }
      | Except.error _ => none
    else none

/-- Following the specification's words, a well-formed list of block
records: a serialized list whose records each carry a `kind` and a `data`
payload.  (Spec-side description, for comparison with what `JSON.parse`
accepts; the source performs no such validation.) -/
def isBlockRecordList : Json → Bool
  | Json.arr items =>
    items.all fun item =>
      match item with
      | Json.obj _ => (jsonGet item "kind").isSome && (jsonGet item "data").isSome
      | _ => false
  | _ => false

/-! ### MultiContentEditor: the parse/preview effect

The charts-management effect body: it first disposes the previous chart
handles (modelled separately below), then runs
`JSON.parse(codeInput)` — on success it replaces the preview block list
and clears the error; on a throw it only sets
`parseError = 'Invalid configuration: ' + e.message`.  `codeInput` is
never written by the effect. -/

structure MCView where
  codeInput : String
  contentList : Json
  parseError : String

/-- `handleEditorChange`: the textarea stores the user's latest keystrokes. -/
def mcEdit (st : MCView) (s : String) : MCView := { st with codeInput := s }

def parseErrorMsg (e : String) : String := "Invalid configuration: " ++ e

def chartsParseEffect (st : MCView) : MCView :=
  match jsonParse st.codeInput with
  | Except.ok j => { st with contentList := j, parseError := "" }
  | Except.error e => { st with parseError := parseErrorMsg e }

/-! ### Render dispatch of the preview blocks

`contentList.map((item, index) => ...)` renders a chart container div for
`item.kind === 'chart'`, injects `md.render(item.data.text)` for
`item.kind === 'markdown'`, and otherwise a marker div
`Unknown content type: {item.kind}`.  JS corners modelled exactly:
reading `.kind` of `null` throws; `md.render` throws unless
`item.data.text` is a string; interpolating an object into JSX throws
("Objects are not valid as a React child").  A throw anywhere aborts the
whole render pass, so the per-item results are sequenced fail-fast. -/

inductive RenderedBlock where
  | chartContainer (idx : Nat)
  | markdownHtml (html : String)
  | unknownMarker (text : String)

mutual

/-- How JSX interpolation displays a parsed value: strings verbatim,
numbers via `String(n)` (integer values printed exactly; other rationals
via `toString`, an approximation of double formatting), `null` and
booleans as nothing, arrays element-wise, objects by throwing. -/
def jsxChild : Json → Except String String
  | Json.null => Except.ok ""
  | Json.bool _ => Except.ok ""
  | Json.num q => Except.ok (if q.den = 1 then toString q.num else toString q)
  | Json.str s => Except.ok s
  | Json.arr items => jsxChildList items
  | Json.obj _ => Except.error "Objects are not valid as a React child"

/-- Array children display element-wise, concatenated; a throw anywhere
propagates. -/
def jsxChildList : List Json → Except String String
  | [] => Except.ok ""
  | x :: rest =>
    match jsxChild x, jsxChildList rest with
    | Except.ok a, Except.ok b => Except.ok (a ++ b)
    | Except.error e, _ => Except.error e
    | _, Except.error e => Except.error e

end

/-- JSX display of `item.kind`; `none` (`undefined`) displays as nothing. -/
def jsxChildOpt : Option Json → Except String String
  | some j => jsxChild j
  | none => Except.ok ""

/-- The boolean value of the strict equality `item.kind === 'chart'`
(only a string equal to `'chart'` compares equal). -/
def kindIsChartTest (item : Json) : Bool :=
  match jsonGet item "kind" with
  | some (Json.str s) => s = "chart"
  | _ => false

/-- The boolean value of the strict equality `item.kind === 'markdown'`. -/
def kindIsMarkdownTest (item : Json) : Bool :=
  match jsonGet item "kind" with
  | some (Json.str s) => s = "markdown"
  | _ => false

def renderBlock (mdRender : String → String) (idx : Nat) (item : Json) :
    Except String RenderedBlock :=
  match item with
  | Json.null => Except.error "TypeError: Cannot read properties of null (reading kind)"
  | _ =>
    if kindIsChartTest item then Except.ok (RenderedBlock.chartContainer idx)
    else if kindIsMarkdownTest item then
      match jsonGet item "data" with
      | none => Except.error "TypeError: Cannot read properties of undefined (reading text)"
      | some Json.null => Except.error "TypeError: Cannot read properties of null (reading text)"
      | some d =>
        match jsonGet d "text" with
        | some (Json.str t) => Except.ok (RenderedBlock.markdownHtml (mdRender t))
        | _ => Except.error "Error: Input data should be a String"
    else
      match jsxChildOpt (jsonGet item "kind") with
      | Except.ok t => Except.ok (RenderedBlock.unknownMarker ("Unknown content type: " ++ t))
      | Except.error e => Except.error e

/-- The whole preview render pass over the block list, fail-fast from
position `i` on (React aborts the pass at the first thrown render). -/
def renderPassAux (mdRender : String → String) (i : Nat) :
    List Json → Except String (List RenderedBlock)
  | [] => Except.ok []
  | item :: rest =>
    match renderBlock mdRender i item with
    | Except.error e => Except.error e
    | Except.ok b =>
      match renderPassAux mdRender (i + 1) rest with
      | Except.error e => Except.error e
      | Except.ok bs => Except.ok (b :: bs)

/-- The dispatch predicate for the marker branch: neither strict-equality
test matches and the `.kind` read does not throw. -/
def isUnknownKind (item : Json) : Bool :=
  match item with
  | Json.null => false
  | _ => !(kindIsChartTest item) && !(kindIsMarkdownTest item)

/-! ### Chart-handle management

The charts effect first disposes every handle of the previous pass and
clears the `charts` state, then (one frame later, once the containers
exist) walks the parsed list: for each `item.kind === 'chart'` at index
`i` whose container `chart-i` is present, it disposes any instance
already registered on that container, creates a fresh handle there, and
collects it.  Handles and containers are identified by the position
index; `registry` is the chart library's container-to-instance table
(`getInstanceByDom`), `charts` the component's own handle array.
Disposal and creation are traced as events.  Reading `.kind` of a `null`
item throws out of the callback. -/

structure ChartsSt where
  charts : List Nat
  registry : List Nat

inductive CEv where
  | dispose (c : Nat)
  | create (c : Nat)

/-- `item.kind === 'chart'`, throwing on `null`. -/
def isChartKind (item : Json) : Except String Bool :=
  match item with
  | Json.null => Except.error "TypeError: Cannot read properties of null (reading kind)"
  | _ => Except.ok (kindIsChartTest item)

/-- Phase 1 of the effect: dispose all previous handles, clear `charts`. -/
def disposePhase (st : ChartsSt) : List CEv × ChartsSt :=
  (st.charts.map CEv.dispose,
   { charts := [], registry := st.charts.foldl (fun r c => r.erase c) st.registry })

/-- Phase 2 (the deferred frame): create one handle per chart block whose
container exists, after the defensive `getInstanceByDom` dispose. -/
def createAux (dom : Nat → Bool) :
    List Json → Nat → List Nat → Except String (List CEv × List Nat × List Nat)
  | [], _, r => Except.ok ([], r, [])
  | item :: rest, i, r =>
    match isChartKind item with
    | Except.error e => Except.error e
    | Except.ok true =>
      if dom i then
        let pre : List CEv × List Nat := if i ∈ r then ([CEv.dispose i], r.erase i) else ([], r)
        match createAux dom rest (i + 1) (pre.2 ++ [i]) with
        | Except.error e => Except.error e
        | Except.ok (evs, r1, nc) => Except.ok (pre.1 ++ CEv.create i :: evs, r1, i :: nc)
      else createAux dom rest (i + 1) r
    | Except.ok false => createAux dom rest (i + 1) r

/-- One full render pass of the charts effect over a successfully parsed
list: dispose everything from the previous pass, then create the new
handles. -/
def chartsRenderPass (st : ChartsSt) (items : List Json) (dom : Nat → Bool) :
    Except String (List CEv × ChartsSt) :=
  let d := disposePhase st
  match createAux dom items 0 d.2.registry with
  | Except.error e => Except.error e
  | Except.ok (evs, r1, nc) => Except.ok (d.1 ++ evs, { charts := nc, registry := r1 })

/-- The container indices of the chart blocks, numbering from `i`. -/
def chartIdxs : List Json → Nat → List Nat
  | [], _ => []
  | item :: rest, i =>
    match isChartKind item with
    | Except.ok true => i :: chartIdxs rest (i + 1)
    | _ => chartIdxs rest (i + 1)

/-- Whether `item.kind === 'chart'` holds (false on `null`, where the JS
read would throw; the charts theorems assume no `null` items). -/
def isChartB (item : Json) : Bool :=
  match item with
  | Json.null => false
  | _ => kindIsChartTest item

/-! ### Filename renames -/

/-- The plain `MarkdownEditor.handleFilenameChange` (no same-name guard):
copy the stored content to the new key — `localStorage.setItem` coerces a
`null` read to the string `"null"` — then remove the old key. -/
def renameSimple (filename : String) (store : Store) (input : String) : String × Store :=
  if input.trim ≠ "" then
    (input.trim,
     removeItem
       (setItem store (docKey mdBase input.trim)
         (match getItem store (docKey mdBase filename) with
          | some c => c
          | none => "null"))
       (docKey mdBase filename))
  else (filename, store)

/-- `MultiContentEditor.handleFilenameChange`: for a non-empty, distinct
trimmed name, write `{ text: codeInput, lastModified: Date.now() }` under
the new key, remove the old key, set the new filename.  The trailing
`loadSavedFiles()` only refreshes the listing state (read-only on the
store). -/
def renameMulti (filename codeInput : String) (store : Store) (input : String) (now : Int) :
    String × Store :=
  if input.trim ≠ "" ∧ input.trim ≠ filename then
    (input.trim,
     removeItem
       (setItem store (docKey multiBase input.trim) (serializeContent codeInput now))
       (docKey multiBase filename))
  else (filename, store)

/-! ### Save effects, the auto-save interval and status timers

The file-list markdown editor, the ECharts editor and the multi-content
editor share one save-effect shape: on every text or filename change,
write `{ text, lastModified: Date.now() }` under the document key, record
the last-used name, refresh the listing (which can throw — the writes
above are already durable), set `saveStatus = 'Saved!'`, and schedule a
clear after 2000 ms.  The `clearTimeout` cleanup closure those effects
build is returned from the inner `saveContent` and *discarded*
(`saveContent();`), so pending clears accumulate in `pendingClears`.

The file-list markdown editor and the ECharts editor additionally run a
30000 ms interval: each firing re-saves and shows `Auto-saved!` exactly
when an edit happened in the last 30000 ms. -/

structure AutoSaveSt where
  text : String
  filename : String
  lastEditTime : Int
  saveStatus : String
  store : Store
  savedFiles : List SavedFile
  pendingClears : List Int

/-- The save effect body (`saveContent` plus the surrounding effect); the
second component is the exception a throwing `loadSavedFiles` would
propagate (the document and last-filename writes are already durable). -/
def perEditSave (base : String) (st : AutoSaveSt) (now : Int) : AutoSaveSt × Option String :=
  let store2 := setItem
    (setItem st.store (docKey base st.filename) (serializeContent st.text now))
    (lastFilenameKey base) st.filename
  match loadSavedFilesScan base now store2 with
  | Except.error e => ({ st with store := store2 }, some e)
  | Except.ok files =>
    ({ st with store := store2, savedFiles := files, saveStatus := "Saved!",
               pendingClears := st.pendingClears ++ [now + 2000] }, none)

/-- An edit: `handleEditorChange` records text and `lastEditTime`, then the
save effect runs on the state change. -/
def editStep (base : String) (st : AutoSaveSt) (s : String) (now : Int) :
    AutoSaveSt × Option String :=
  perEditSave base { st with text := s, lastEditTime := now } now

/-- One firing of the 30000 ms auto-save interval. -/
def autoSaveTick (base : String) (st : AutoSaveSt) (now : Int) : AutoSaveSt :=
  if now - st.lastEditTime < 30000 then
    { st with store := setItem st.store (docKey base st.filename) (serializeContent st.text now),
              saveStatus := "Auto-saved!",
              pendingClears := st.pendingClears ++ [now + 2000] }
  else st

/-- A status-clear timer scheduled for time `t` firing in the shared
save-effect shape: these timers were never cancelled, so any recorded
deadline can fire. -/
def statusClearFire (st : AutoSaveSt) (t : Int) : AutoSaveSt :=
  if t ∈ st.pendingClears then
    { st with saveStatus := "", pendingClears := st.pendingClears.erase t }
  else st

/-! The plain `MarkdownEditor` save effect (the first component of
`MarkdownEditor.js`) differs: it stores the markdown as plain text, and
its effect *returns* the `clearTimeout` cleanup, which React runs before
re-running the effect — so at most one clear timer is ever pending. -/

structure SimpleSt where
  markdown : String
  filename : String
  html : String
  saveStatus : String
  store : Store
  pendingClear : Option Int

/-- The save effect on `[markdown, filename]`: render, write-through the
plain text, record the last-used name, set the status, and replace the
pending clear timer (the previous effect's cleanup cancelled it). -/
def simpleSaveEffect (mdRender : String → String) (st : SimpleSt) (now : Int) : SimpleSt :=
  { st with
    html := mdRender st.markdown,
    store := setItem (setItem st.store (docKey mdBase st.filename) st.markdown)
      (lastFilenameKey mdBase) st.filename,
    saveStatus := "Saved!",
    pendingClear := some (now + 2000) }

/-- An edit in the plain editor: set the text, then the effect runs. -/
def simpleEdit (mdRender : String → String) (st : SimpleSt) (s : String) (now : Int) :
    SimpleSt :=
  simpleSaveEffect mdRender { st with markdown := s } now

/-- The (sole) pending clear timer firing at time `t`. -/
def simpleFire (st : SimpleSt) (t : Int) : SimpleSt :=
  if st.pendingClear = some t then { st with saveStatus := "", pendingClear := none }
  else st

/-! ### Helper lemmas: keys and the store -/

theorem storeKeys_cons (kv : String × String) (rest : Store) :
    storeKeys (kv :: rest) = kv.1 :: storeKeys rest := rfl

theorem docKey_data (base n : String) : (docKey base n).data = base.data ++ '-' :: n.data := by
  simp [docKey, String.data_append]

theorem docKey_inj {base a b : String} (h : docKey base a = docKey base b) : a = b := by
  have hd := congrArg String.data h
  rw [docKey_data, docKey_data] at hd
  exact String.ext (by simpa using hd)

theorem jsEndsWith_docKey {n t : String} (base : String) (h : jsEndsWith n t = true) :
    jsEndsWith (docKey base n) t = true := by
  rw [jsEndsWith, List.isSuffixOf_iff_suffix] at h ⊢
  rw [docKey_data, show base.data ++ '-' :: n.data = (base.data ++ ['-']) ++ n.data by simp]
  exact h.trans (List.suffix_append _ _)

theorem getItem_setItem_self (s : Store) (k v : String) :
    getItem (setItem s k v) k = some v := by
  induction s with
  | nil => simp [setItem, getItem]
  | cons kv rest ih =>
    by_cases h : kv.1 = k
    · simp [setItem, h, getItem]
    · simp [setItem, h, getItem, ih]

theorem getItem_setItem_ne (s : Store) {k k' : String} (v : String) (h : k' ≠ k) :
    getItem (setItem s k' v) k = getItem s k := by
  induction s with
  | nil => simp [setItem, getItem, h]
  | cons kv rest ih =>
    by_cases hk : kv.1 = k'
    · simp [setItem, hk, getItem, h]
    · simp [setItem, hk, getItem, ih]

theorem getItem_removeItem_ne (s : Store) {k k' : String} (h : k' ≠ k) :
    getItem (removeItem s k') k = getItem s k := by
  induction s with
  | nil => simp [removeItem]
  | cons kv rest ih =>
    by_cases hk : kv.1 = k'
    · have hne : kv.1 ≠ k := fun hh => h (hk.symm.trans hh)
      simp [removeItem, hk, getItem, hne, h]
    · simp [removeItem, hk, getItem, ih]

theorem getItem_eq_none_of_not_mem (s : Store) {k : String} (h : k ∉ storeKeys s) :
    getItem s k = none := by
  induction s with
  | nil => rfl
  | cons kv rest ih =>
    rw [storeKeys_cons, List.mem_cons] at h
    push_neg at h
    simp only [getItem]
    rw [if_neg (fun hh => h.1 hh.symm)]
    exact ih h.2

theorem getItem_removeItem_self (s : Store) {k : String} (h : (storeKeys s).Nodup) :
    getItem (removeItem s k) k = none := by
  induction s with
  | nil => rfl
  | cons kv rest ih =>
    rw [storeKeys_cons, List.nodup_cons] at h
    by_cases hk : kv.1 = k
    · simp only [removeItem, if_pos hk]
      exact getItem_eq_none_of_not_mem rest (hk ▸ h.1)
    · simp only [removeItem, if_neg hk, getItem]
      exact ih h.2

theorem mem_keys_setItem {s : Store} {k v x : String}
    (h : x ∈ storeKeys (setItem s k v)) : x ∈ storeKeys s ∨ x = k := by
  induction s with
  | nil =>
    simp only [setItem, storeKeys_cons] at h
    right
    simpa [storeKeys] using h
  | cons kv rest ih =>
    by_cases hk : kv.1 = k
    · rw [show setItem (kv :: rest) k v = (k, v) :: rest by simp [setItem, hk],
        storeKeys_cons, List.mem_cons] at h
      rcases h with h | h
      · right; exact h
      · left; rw [storeKeys_cons, List.mem_cons]; right; exact h
    · rw [show setItem (kv :: rest) k v = kv :: setItem rest k v by simp [setItem, hk],
        storeKeys_cons, List.mem_cons] at h
      rcases h with h | h
      · left; rw [storeKeys_cons, List.mem_cons]; left; exact h
      · rcases ih h with h2 | h2
        · left; rw [storeKeys_cons, List.mem_cons]; right; exact h2
        · right; exact h2

theorem nodup_keys_setItem (s : Store) (k v : String) (h : (storeKeys s).Nodup) :
    (storeKeys (setItem s k v)).Nodup := by
  induction s with
  | nil => simp [setItem, storeKeys]
  | cons kv rest ih =>
    rw [storeKeys_cons, List.nodup_cons] at h
    by_cases hk : kv.1 = k
    · rw [show setItem (kv :: rest) k v = (k, v) :: rest by simp [setItem, hk],
        storeKeys_cons]
      exact List.nodup_cons.mpr ⟨hk ▸ h.1, h.2⟩
    · rw [show setItem (kv :: rest) k v = kv :: setItem rest k v by simp [setItem, hk],
        storeKeys_cons]
      refine List.nodup_cons.mpr ⟨fun hmem => ?_, ih h.2⟩
      rcases mem_keys_setItem hmem with h2 | h2
      · exact h.1 h2
      · exact hk h2

theorem removeItem_sublist (s : Store) (k : String) : List.Sublist (removeItem s k) s := by
  induction s with
  | nil => simp [removeItem]
  | cons kv rest ih =>
    by_cases hk : kv.1 = k
    · rw [show removeItem (kv :: rest) k = rest by simp [removeItem, hk]]
      exact List.sublist_cons_self kv rest
    · rw [show removeItem (kv :: rest) k = kv :: removeItem rest k by simp [removeItem, hk]]
      exact List.Sublist.cons₂ kv ih

theorem nodup_keys_removeItem (s : Store) (k : String) (h : (storeKeys s).Nodup) :
    (storeKeys (removeItem s k)).Nodup :=
  ((removeItem_sublist s k).map Prod.fst).nodup h

/-! ### Helper lemmas: the render pass -/

theorem renderPassAux_append (mdRender : String → String) (l1 l2 : List Json) :
    ∀ i, renderPassAux mdRender i (l1 ++ l2) =
      match renderPassAux mdRender i l1 with
      | Except.error e => Except.error e
      | Except.ok bs =>
        match renderPassAux mdRender (i + l1.length) l2 with
        | Except.error e => Except.error e
        | Except.ok cs => Except.ok (bs ++ cs) := by
  induction l1 with
  | nil =>
    intro i
    cases h : renderPassAux mdRender (i + 0) l2 <;> simp_all [renderPassAux]
  | cons item rest ih =>
    intro i
    simp only [List.cons_append, renderPassAux]
    cases renderBlock mdRender i item with
    | error e => rfl
    | ok b =>
      have hbridge : renderPassAux mdRender (i + 1) (rest.append l2) =
          renderPassAux mdRender (i + 1) (rest ++ l2) := rfl
      rw [hbridge, ih (i + 1)]
      have harith : i + 1 + rest.length = i + (rest.length + 1) := by omega
      rw [harith]
      cases renderPassAux mdRender (i + 1) rest with
      | error e => rfl
      | ok bs =>
        simp only [List.length_cons]
        cases renderPassAux mdRender (i + (rest.length + 1)) l2 <;> rfl

/-! ### Helper lemmas: the charts render pass -/

theorem isChartKind_of_ne_null {item : Json} (h : item ≠ Json.null) :
    isChartKind item = Except.ok (isChartB item) := by
  cases item <;> first
    | exact absurd rfl h
    | rfl

theorem chartIdxs_lb {l : List Json} : ∀ {i j : Nat}, j ∈ chartIdxs l i → i ≤ j := by
  induction l with
  | nil => intro i j h; simp [chartIdxs] at h
  | cons item rest ih =>
    intro i j h
    unfold chartIdxs at h
    cases hk : isChartKind item with
    | error e =>
      rw [hk] at h
      exact le_of_lt (Nat.lt_of_succ_le (ih h))
    | ok b =>
      cases b with
      | true =>
        rw [hk] at h
        rcases List.mem_cons.mp h with rfl | h2
        · exact le_rfl
        · exact le_of_lt (Nat.lt_of_succ_le (ih h2))
      | false =>
        rw [hk] at h
        exact le_of_lt (Nat.lt_of_succ_le (ih h))

theorem chartIdxs_nodup (l : List Json) : ∀ i, (chartIdxs l i).Nodup := by
  induction l with
  | nil => intro i; simp [chartIdxs]
  | cons item rest ih =>
    intro i
    unfold chartIdxs
    cases hk : isChartKind item with
    | error e => exact ih (i + 1)
    | ok b =>
      cases b with
      | true =>
        refine List.nodup_cons.mpr ⟨fun hmem => ?_, ih (i + 1)⟩
        exact absurd (chartIdxs_lb hmem) (by omega)
      | false => exact ih (i + 1)

theorem chartIdxs_length (l : List Json) (hnull : ∀ it ∈ l, it ≠ Json.null) :
    ∀ i, (chartIdxs l i).length = l.countP isChartB := by
  induction l with
  | nil => intro i; simp [chartIdxs]
  | cons item rest ih =>
    intro i
    have hhead : isChartKind item = Except.ok (isChartB item) :=
      isChartKind_of_ne_null (hnull item (List.mem_cons_self item rest))
    have htail := ih (fun it hit => hnull it (List.mem_cons_of_mem item hit))
    unfold chartIdxs
    rw [hhead, List.countP_cons]
    cases hb : isChartB item <;> simp [hb, htail]

theorem chartIdxs_mem_iff (l : List Json) (hnull : ∀ it ∈ l, it ≠ Json.null) :
    ∀ i k item, l.get? k = some item → (i + k ∈ chartIdxs l i ↔ isChartB item = true) := by
  induction l with
  | nil => intro i k item h; simp at h
  | cons hd rest ih =>
    intro i k item h
    have hhead : isChartKind hd = Except.ok (isChartB hd) :=
      isChartKind_of_ne_null (hnull hd (List.mem_cons_self hd rest))
    have htail := ih (fun it hit => hnull it (List.mem_cons_of_mem hd hit))
    cases k with
    | zero =>
      rw [List.get?_cons_zero, Option.some.injEq] at h
      rw [← h]
      unfold chartIdxs
      rw [hhead]
      cases hb : isChartB hd with
      | true => simp
      | false =>
        simp only [Nat.add_zero]
        constructor
        · intro hmem
          exact absurd (chartIdxs_lb hmem) (by omega)
        · intro hcontra
          exact absurd hcontra (by simp)
    | succ k2 =>
      simp only [List.get?_cons_succ] at h
      have harith : i + (k2 + 1) = (i + 1) + k2 := by omega
      unfold chartIdxs
      rw [hhead]
      cases hb : isChartB hd with
      | true =>
        rw [harith, List.mem_cons]
        have hne : ¬ (i + 1 + k2 = i) := by omega
        rw [or_iff_right hne]
        exact htail (i + 1) k2 item h
      | false =>
        rw [harith]
        exact htail (i + 1) k2 item h

theorem createAux_clean (dom : Nat → Bool) (hdom : ∀ j, dom j = true) :
    ∀ (l : List Json) (i : Nat) (r : List Nat),
      (∀ it ∈ l, it ≠ Json.null) → (∀ x ∈ r, x < i) →
      createAux dom l i r =
        Except.ok ((chartIdxs l i).map CEv.create, r ++ chartIdxs l i, chartIdxs l i) := by
  intro l
  induction l with
  | nil => intro i r _ _; simp [createAux, chartIdxs]
  | cons item rest ih =>
    intro i r hnull hr
    have hhead : isChartKind item = Except.ok (isChartB item) :=
      isChartKind_of_ne_null (hnull item (List.mem_cons_self item rest))
    have hnull2 : ∀ it ∈ rest, it ≠ Json.null :=
      fun it hit => hnull it (List.mem_cons_of_mem item hit)
    unfold createAux chartIdxs
    rw [hhead]
    cases hb : isChartB item with
    | false =>
      exact ih (i + 1) r hnull2 (fun x hx => Nat.lt_succ_of_lt (hr x hx))
    | true =>
      rw [hdom i, if_pos rfl]
      have hni : i ∉ r := fun hmem => absurd (hr i hmem) (by omega)
      rw [if_neg hni]
      have hr2 : ∀ x ∈ r ++ [i], x < i + 1 := by
        intro x hx
        rcases List.mem_append.mp hx with hx | hx
        · exact Nat.lt_succ_of_lt (hr x hx)
        · simp at hx; omega
      dsimp only
      rw [ih (i + 1) (r ++ [i]) hnull2 hr2]
      simp

theorem foldl_erase_self (l : List Nat) (h : l.Nodup) :
    l.foldl (fun r c => r.erase c) l = [] := by
  induction l with
  | nil => rfl
  | cons c rest ih =>
    rw [List.nodup_cons] at h
    show List.foldl (fun r c => r.erase c) ((c :: rest).erase c) rest = []
    rw [List.erase_cons_head]
    exact ih h.2

/-! ### Helper lemmas: the file listing -/

theorem scan_ok_of_parse_ok (base : String) (now : Int) (store : Store)
    (h : ∀ kv ∈ store, fileFilter base kv.1 = true → (jsonParse kv.2).isOk = true) :
    loadSavedFilesScan base now store = Except.ok (expectedFiles base now store) := by
  induction store with
  | nil => rfl
  | cons kv rest ih =>
    have htail := ih (fun kv2 hkv2 hf => h kv2 (List.mem_cons_of_mem kv hkv2) hf)
    by_cases hf : fileFilter base kv.1 = true
    · cases hp : jsonParse kv.2 with
      | error e =>
        have hok := h kv (List.mem_cons_self kv rest) hf
        rw [hp] at hok
        simp [Except.isOk, Except.toBool] at hok
      | ok j =>
        simp only [loadSavedFilesScan, hf, if_pos, hp, htail, expectedFiles, List.filterMap_cons]
    · have hf2 : fileFilter base kv.1 = false := by
        cases hfv : fileFilter base kv.1
        · rfl
        · exact absurd hfv hf
      simp only [loadSavedFilesScan, hf2, expectedFiles, List.filterMap_cons] at htail ⊢
      simpa [Bool.false_eq_true, if_neg] using htail

theorem scan_length_of_parse_ok (base : String) (now : Int) (store : Store)
    (h : ∀ kv ∈ store, fileFilter base kv.1 = true → (jsonParse kv.2).isOk = true) :
    (expectedFiles base now store).length =
      (store.filter fun kv => fileFilter base kv.1).length := by
  induction store with
  | nil => rfl
  | cons kv rest ih =>
    have htail := ih (fun kv2 hkv2 hf => h kv2 (List.mem_cons_of_mem kv hkv2) hf)
    by_cases hf : fileFilter base kv.1 = true
    · cases hp : jsonParse kv.2 with
      | error e =>
        have hok := h kv (List.mem_cons_self kv rest) hf
        rw [hp] at hok
        simp [Except.isOk, Except.toBool] at hok
      | ok j =>
        simp [expectedFiles, List.filterMap_cons, hf, hp, List.filter_cons] at htail ⊢
        omega
    · have hf2 : fileFilter base kv.1 = false := by
        cases hfv : fileFilter base kv.1
        · rfl
        · exact absurd hfv hf
      simpa [expectedFiles, List.filterMap_cons, hf2, List.filter_cons] using htail

/-! ### Remaining helper lemmas -/

theorem parseErrorMsg_ne_empty (e : String) : parseErrorMsg e ≠ "" := by
  intro hc
  have hd := congrArg String.data hc
  rw [parseErrorMsg, String.data_append] at hd
  have hlen := congrArg List.length hd
  simp at hlen

theorem docKey_lastFilename (base : String) : docKey base "last-filename" = lastFilenameKey base := by
  apply String.ext
  rw [docKey_data, lastFilenameKey, String.data_append]

/-! ### The claims -/

/-- C1: for every raw-text input to the multi-content editor whose parse
attempt fails, the parse/preview effect leaves the displayed block list
exactly as it was after the last successful parse, surfaces a non-empty
diagnostic message, and the raw-text editor state still equals the
user's latest input. -/
theorem c1_parse_failure_preserves_preview (st : MCView) (s : String)
    (h : (jsonParse s).isOk = false) :
    (chartsParseEffect (mcEdit st s)).contentList = st.contentList
    ∧ (chartsParseEffect (mcEdit st s)).parseError ≠ ""
    ∧ (chartsParseEffect (mcEdit st s)).codeInput = s := by
  cases hp : jsonParse s with
  | ok j =>
    rw [hp] at h
    simp [Except.isOk, Except.toBool] at h
  | error e =>
    refine ⟨?_, ?_, ?_⟩
    · simp [chartsParseEffect, mcEdit, hp]
    · simpa [chartsParseEffect, mcEdit, hp] using parseErrorMsg_ne_empty e
    · simp [chartsParseEffect, mcEdit, hp]

/-- Witness for C1 at the unparseable input `"["`: the preview list stays
the last parsed value, the diagnostic is non-empty, the editor holds the
keystrokes. -/
theorem c1_witness :
    (chartsParseEffect (mcEdit ⟨"[]", Json.arr [Json.null], "old"⟩ "[")).contentList
        = Json.arr [Json.null]
    ∧ (chartsParseEffect (mcEdit ⟨"[]", Json.arr [Json.null], "old"⟩ "[")).parseError ≠ ""
    ∧ (chartsParseEffect (mcEdit ⟨"[]", Json.arr [Json.null], "old"⟩ "[")).codeInput = "[" :=
  c1_parse_failure_preserves_preview ⟨"[]", Json.arr [Json.null], "old"⟩ "[" (by rfl)

/-- C3 counterexample: `JSON.parse` accepts `"42"` without error though a
number is not a well-formed list of block records — the parse layer does
no block-record validation. -/
theorem c3_counterexample :
    jsonParse "42" = Except.ok (Json.num 42)
    ∧ isBlockRecordList (Json.num 42) = false :=
  ⟨by with_unfolding_all rfl, rfl⟩

/-- C3 (amended): the parse fails exactly when the input is not well-formed
JSON; on failure a single error with a diagnostic message is surfaced (as
non-empty `parseError` text) and no block sequence is produced, while any
well-formed JSON value — list of block records or not — is accepted. -/
theorem c3_parse_error_policy (s : String) (st : MCView) (hcode : st.codeInput = s) :
    ((jsonParse s).isOk = false →
      ∃ e, jsonParse s = Except.error e
        ∧ (chartsParseEffect st).parseError = parseErrorMsg e
        ∧ (chartsParseEffect st).parseError ≠ ""
        ∧ (chartsParseEffect st).contentList = st.contentList)
    ∧ ((jsonParse s).isOk = true →
      ∃ j, jsonParse s = Except.ok j
        ∧ (chartsParseEffect st).parseError = ""
        ∧ (chartsParseEffect st).contentList = j) := by
  subst hcode
  constructor
  · intro h
    cases hp : jsonParse st.codeInput with
    | ok j =>
      rw [hp] at h
      simp [Except.isOk, Except.toBool] at h
    | error e =>
      exact ⟨e, rfl, by simp [chartsParseEffect, hp],
        by simpa [chartsParseEffect, hp] using parseErrorMsg_ne_empty e,
        by simp [chartsParseEffect, hp]⟩
  · intro h
    cases hp : jsonParse st.codeInput with
    | error e =>
      rw [hp] at h
      simp [Except.isOk, Except.toBool] at h
    | ok j =>
      exact ⟨j, rfl, by simp [chartsParseEffect, hp], by simp [chartsParseEffect, hp]⟩

/-- Witness for C3 (amended), on the failing side at input `"["`. -/
theorem c3_policy_witness :
    ∃ e, jsonParse "[" = Except.error e
      ∧ (chartsParseEffect ⟨"[", Json.arr [], ""⟩).parseError = parseErrorMsg e
      ∧ (chartsParseEffect ⟨"[", Json.arr [], ""⟩).parseError ≠ ""
      ∧ (chartsParseEffect ⟨"[", Json.arr [], ""⟩).contentList = Json.arr [] :=
  (c3_parse_error_policy "[" ⟨"[", Json.arr [], ""⟩ rfl).1 (by rfl)

/-- C10: the last-used-name record lives in the document keyspace: a
document literally named `last-filename` has exactly the record's key (so
storing it overwrites the record), `put`/`get` treat any document whose
name ends in `last-filename` normally, but the listing scan never returns
such a document. -/
theorem c10_last_filename_keyspace (base n v : String)
    (h : jsEndsWith n "last-filename" = true) :
    docKey base "last-filename" = lastFilenameKey base
    ∧ (∀ store : Store, getItem (setItem store (docKey base n) v) (docKey base n) = some v)
    ∧ ∀ (now : Int) (store : Store),
        loadSavedFilesScan base now ((docKey base n, v) :: store) =
          loadSavedFilesScan base now store := by
  refine ⟨docKey_lastFilename base, fun store => getItem_setItem_self store _ v, ?_⟩
  intro now store
  have hf : fileFilter base (docKey base n) = false := by
    unfold fileFilter
    rw [jsEndsWith_docKey base h]
    simp
  simp [loadSavedFilesScan, hf]

/-- Witness for C10 in the multi-content namespace with the document name
`my-last-filename`. -/
theorem c10_witness :
    docKey multiBase "last-filename" = lastFilenameKey multiBase
    ∧ (∀ store : Store,
        getItem (setItem store (docKey multiBase "my-last-filename") "x")
          (docKey multiBase "my-last-filename") = some "x")
    ∧ ∀ (now : Int) (store : Store),
        loadSavedFilesScan multiBase now ((docKey multiBase "my-last-filename", "x") :: store) =
          loadSavedFilesScan multiBase now store :=
  c10_last_filename_keyspace multiBase "my-last-filename" "x" (by rfl)

/-- C5 counterexample: in the multi-content editor, renaming `a` to `b`
does not copy the stored record — it re-serializes the current editor
text with a fresh `lastModified` (here rename time 9, stored timestamp
5), so `get(b)` differs from what was stored under `a` just before. -/
theorem c5_counterexample :
    getItem [(docKey multiBase "a", serializeContent "T" 5)] (docKey multiBase "a")
      = some (serializeContent "T" 5)
    ∧ getItem (renameMulti "a" "T" [(docKey multiBase "a", serializeContent "T" 5)] "b" 9).2
        (docKey multiBase "b") = some (serializeContent "T" 9)
    ∧ getItem (renameMulti "a" "T" [(docKey multiBase "a", serializeContent "T" 5)] "b" 9).2
        (docKey multiBase "a") = none
    ∧ serializeContent "T" 9 ≠ serializeContent "T" 5 :=
  ⟨by with_unfolding_all rfl, by with_unfolding_all rfl, by with_unfolding_all rfl, by decide⟩

/-- C5 (amended): renaming `a` to a distinct non-empty `b` removes the old
key and leaves exactly one entry under `b`, keeping at most one stored
document per name.  The plain markdown editor copies the stored content
verbatim, so `get(b)` equals the pre-rename `get(a)`; the multi-content
editor instead stores the current editor text re-serialized with the
rename-time timestamp. -/
theorem c5_rename_storage (a b c codeInput : String) (store : Store) (now : Int)
    (htrim : b.trim = b) (hb : b ≠ "") (hab : b ≠ a)
    (hnd : (storeKeys store).Nodup)
    (hcur : getItem store (docKey mdBase a) = some c) :
    (getItem (renameSimple a store b).2 (docKey mdBase b) = some c
      ∧ getItem (renameSimple a store b).2 (docKey mdBase a) = none)
    ∧ (getItem (renameMulti a codeInput store b now).2 (docKey multiBase b)
          = some (serializeContent codeInput now)
      ∧ getItem (renameMulti a codeInput store b now).2 (docKey multiBase a) = none
      ∧ (storeKeys (renameMulti a codeInput store b now).2).Nodup) := by
  have hkey : docKey mdBase a ≠ docKey mdBase b := fun hh => hab (docKey_inj hh).symm
  have hkey2 : docKey multiBase a ≠ docKey multiBase b := fun hh => hab (docKey_inj hh).symm
  constructor
  · unfold renameSimple
    rw [htrim, if_pos hb]
    dsimp only
    rw [hcur]
    constructor
    · rw [getItem_removeItem_ne _ hkey, getItem_setItem_self]
    · exact getItem_removeItem_self _ (nodup_keys_setItem store _ _ hnd)
  · unfold renameMulti
    rw [htrim, if_pos ⟨hb, hab⟩]
    dsimp only
    refine ⟨?_, ?_, ?_⟩
    · rw [getItem_removeItem_ne _ hkey2, getItem_setItem_self]
    · exact getItem_removeItem_self _ (nodup_keys_setItem store _ _ hnd)
    · exact nodup_keys_removeItem _ _ (nodup_keys_setItem store _ _ hnd)

/-- Witness for C5 (amended) at a two-namespace store holding `a` in both
editors' keyspaces. -/
theorem c5_witness :
    (getItem (renameSimple "a" [(docKey mdBase "a", "hello"),
        (docKey multiBase "a", serializeContent "T" 5)] "b").2 (docKey mdBase "b")
        = some "hello"
      ∧ getItem (renameSimple "a" [(docKey mdBase "a", "hello"),
          (docKey multiBase "a", serializeContent "T" 5)] "b").2 (docKey mdBase "a") = none)
    ∧ (getItem (renameMulti "a" "T" [(docKey mdBase "a", "hello"),
          (docKey multiBase "a", serializeContent "T" 5)] "b" 9).2 (docKey multiBase "b")
          = some (serializeContent "T" 9)
      ∧ getItem (renameMulti "a" "T" [(docKey mdBase "a", "hello"),
          (docKey multiBase "a", serializeContent "T" 5)] "b" 9).2 (docKey multiBase "a") = none
      ∧ (storeKeys (renameMulti "a" "T" [(docKey mdBase "a", "hello"),
          (docKey multiBase "a", serializeContent "T" 5)] "b" 9).2).Nodup) :=
  c5_rename_storage "a" "b" "hello" "T"
    [(docKey mdBase "a", "hello"), (docKey multiBase "a", serializeContent "T" 5)] 9
    (by with_unfolding_all rfl) (by decide) (by decide)
    (by with_unfolding_all decide) (by with_unfolding_all rfl)

/-- C2: one render pass of the charts effect over a successfully parsed
document (all blocks non-null, every chart container laid out): the trace
disposes every handle of the previous pass before any creation; the pass
ends with exactly one live handle per chart block, bound to the container
at that block's position index; and the handle containers are pairwise
distinct (the chart registry ends equal to the handle list). -/
theorem c2_render_pass_handles (st : ChartsSt) (items : List Json) (dom : Nat → Bool)
    (hreg : st.registry = st.charts) (hnd : st.charts.Nodup)
    (hnull : ∀ it ∈ items, it ≠ Json.null) (hdom : ∀ j, dom j = true) :
    chartsRenderPass st items dom =
      Except.ok (st.charts.map CEv.dispose ++ (chartIdxs items 0).map CEv.create,
        { charts := chartIdxs items 0, registry := chartIdxs items 0 })
    ∧ (chartIdxs items 0).Nodup
    ∧ (chartIdxs items 0).length = items.countP isChartB
    ∧ ∀ k item, items.get? k = some item → (k ∈ chartIdxs items 0 ↔ isChartB item = true) := by
  refine ⟨?_, chartIdxs_nodup items 0, chartIdxs_length items hnull 0, ?_⟩
  · unfold chartsRenderPass disposePhase
    dsimp only
    rw [hreg, foldl_erase_self st.charts hnd]
    rw [createAux_clean dom hdom items 0 [] hnull (by intro x hx; simp at hx)]
    simp
  · intro k item h
    simpa using chartIdxs_mem_iff items hnull 0 k item h

/-- Witness for C2: a prior pass holding a stale handle on container 5,
re-rendering a two-block document (chart at index 0, markdown at index 1)
with every container present. -/
theorem c2_witness :
    chartsRenderPass ⟨[5], [5]⟩
      [Json.obj [("kind", Json.str "chart"), ("data", Json.obj [])],
       Json.obj [("kind", Json.str "markdown"), ("data", Json.obj [("text", Json.str "hi")])]]
      (fun _ => true) =
      Except.ok ([CEv.dispose 5, CEv.create 0], { charts := [0], registry := [0] })
    ∧ (chartIdxs
        [Json.obj [("kind", Json.str "chart"), ("data", Json.obj [])],
         Json.obj [("kind", Json.str "markdown"), ("data", Json.obj [("text", Json.str "hi")])]]
        0).length =
      List.countP isChartB
        [Json.obj [("kind", Json.str "chart"), ("data", Json.obj [])],
         Json.obj [("kind", Json.str "markdown"), ("data", Json.obj [("text", Json.str "hi")])]] := by
  have h := c2_render_pass_handles ⟨[5], [5]⟩
    [Json.obj [("kind", Json.str "chart"), ("data", Json.obj [])],
     Json.obj [("kind", Json.str "markdown"), ("data", Json.obj [("text", Json.str "hi")])]]
    (fun _ => true) rfl (by simp)
    (by intro it hit; simp at hit; rcases hit with rfl | rfl <;> nofun)
    (fun _ => rfl)
  refine ⟨?_, h.2.2.1⟩
  rw [h.1]
  with_unfolding_all rfl

/-- C4 counterexample: `null` is a parsed block whose `kind` is neither
`markdown` nor `chart` (it has no own properties at all), yet rendering
it throws — the `.kind` read on `null` raises a TypeError and the whole
pass aborts instead of showing an inert marker. -/
theorem c4_counterexample :
    jsonParse "[null]" = Except.ok (Json.arr [Json.null])
    ∧ (renderBlock (fun s => s) 0 Json.null).isOk = false
    ∧ (renderPassAux (fun s => s) 0 [Json.null]).isOk = false :=
  ⟨by with_unfolding_all rfl, rfl, rfl⟩

/-- C4 (amended): every parsed block other than `null` whose kind passes
neither strict-equality test, and whose kind value is displayable as a
React child (not an object and not an array containing one), is kept at
its position in the sequence, renders the visible
`Unknown content type: ...` marker, never throws, and leaves every
sibling block's render result exactly as it would be without it. -/
theorem c4_unknown_kind_render (mdRender : String → String) (item : Json)
    (pre post : List Json)
    (h1 : isUnknownKind item = true)
    (h2 : (jsxChildOpt (jsonGet item "kind")).isOk = true) :
    ∃ t, jsxChildOpt (jsonGet item "kind") = Except.ok t
      ∧ (∀ i, renderBlock mdRender i item =
          Except.ok (RenderedBlock.unknownMarker ("Unknown content type: " ++ t)))
      ∧ renderPassAux mdRender 0 (pre ++ item :: post) =
        (match renderPassAux mdRender 0 pre,
               renderPassAux mdRender (pre.length + 1) post with
         | Except.ok bs, Except.ok cs =>
            Except.ok (bs ++ RenderedBlock.unknownMarker ("Unknown content type: " ++ t) :: cs)
         | Except.error e, _ => Except.error e
         | Except.ok _, Except.error e => Except.error e) := by
  cases hjx : jsxChildOpt (jsonGet item "kind") with
  | error e =>
    rw [hjx] at h2
    simp [Except.isOk, Except.toBool] at h2
  | ok t =>
    have hrb : ∀ i, renderBlock mdRender i item =
        Except.ok (RenderedBlock.unknownMarker ("Unknown content type: " ++ t)) := by
      intro i
      cases item <;>
        first
          | exact absurd h1 (by decide)
          | (rw [isUnknownKind] at h1
             simp at h1
             simp [renderBlock, h1.1, h1.2, hjx]
             nofun)
    refine ⟨t, rfl, hrb, ?_⟩
    rw [renderPassAux_append mdRender pre (item :: post) 0]
    cases renderPassAux mdRender 0 pre with
    | error e => rfl
    | ok bs =>
      dsimp only
      rw [show renderPassAux mdRender (0 + pre.length) (item :: post) =
          match renderBlock mdRender (0 + pre.length) item with
          | Except.error e => Except.error e
          | Except.ok b =>
            match renderPassAux mdRender (0 + pre.length + 1) post with
            | Except.error e => Except.error e
            | Except.ok bs => Except.ok (b :: bs) from rfl]
      rw [hrb (0 + pre.length)]
      dsimp only
      rw [show (0 : Nat) + pre.length + 1 = pre.length + 1 by omega]
      cases renderPassAux mdRender (pre.length + 1) post <;> rfl

/-- Witness for C4 (amended): a block of kind `"widget"` between a
markdown block and a chart block renders as the marker and leaves both
siblings rendered. -/
theorem c4_witness :
    ∃ t, jsxChildOpt (jsonGet (Json.obj [("kind", Json.str "widget")]) "kind") = Except.ok t
      ∧ (∀ i, renderBlock (fun s => s) i (Json.obj [("kind", Json.str "widget")]) =
          Except.ok (RenderedBlock.unknownMarker ("Unknown content type: " ++ t)))
      ∧ renderPassAux (fun s => s) 0
          ([Json.obj [("kind", Json.str "markdown"), ("data", Json.obj [("text", Json.str "# Hi")])]]
            ++ Json.obj [("kind", Json.str "widget")] ::
              [Json.obj [("kind", Json.str "chart"), ("data", Json.obj [])]]) =
        (match renderPassAux (fun s => s) 0
            [Json.obj [("kind", Json.str "markdown"), ("data", Json.obj [("text", Json.str "# Hi")])]],
           renderPassAux (fun s => s) 2
            [Json.obj [("kind", Json.str "chart"), ("data", Json.obj [])]] with
         | Except.ok bs, Except.ok cs =>
            Except.ok (bs ++ RenderedBlock.unknownMarker ("Unknown content type: " ++ t) :: cs)
         | Except.error e, _ => Except.error e
         | Except.ok _, Except.error e => Except.error e) :=
  c4_unknown_kind_render (fun s => s) (Json.obj [("kind", Json.str "widget")])
    [Json.obj [("kind", Json.str "markdown"), ("data", Json.obj [("text", Json.str "# Hi")])]]
    [Json.obj [("kind", Json.str "chart"), ("data", Json.obj [])]]
    (by decide) (by decide)

/-- C6 counterexample: a stored entry whose payload is not parseable JSON
(`"hello"`) makes the whole listing throw out of `loadSavedFiles`, even
though a well-formed sibling entry exists — the `?.`/`||` fallback only
guards parseable payloads, not a throwing `JSON.parse`. -/
theorem c6_counterexample :
    (loadSavedFilesSorted multiBase 0
      [(docKey multiBase "a", "hello"),
       (docKey multiBase "b", serializeContent "x" 5)]).isOk = false := by
  with_unfolding_all rfl

/-- C6 (amended): when every namespace entry's payload is parseable JSON,
the listing succeeds and is complete — one record per matching key — with
a payload that is null or lacks a truthy `lastModified` tolerated by
taking the current time; an entry with a non-parseable payload instead
fails the whole listing (see the counterexample). -/
theorem c6_listing_tolerance (base : String) (now : Int) (store : Store)
    (h : ∀ kv ∈ store, fileFilter base kv.1 = true → (jsonParse kv.2).isOk = true) :
    loadSavedFilesScan base now store = Except.ok (expectedFiles base now store)
    ∧ loadSavedFilesSorted base now store =
        Except.ok (sortStable lmDescLe (expectedFiles base now store))
    ∧ (expectedFiles base now store).length =
        (store.filter fun kv => fileFilter base kv.1).length := by
  refine ⟨scan_ok_of_parse_ok base now store h, ?_, scan_length_of_parse_ok base now store h⟩
  unfold loadSavedFilesSorted
  rw [scan_ok_of_parse_ok base now store h]
  rfl

/-- Witness for C6 (amended): an entry with payload `{}` (parseable, no
`lastModified`) is listed with the current time 7 beside a normal entry. -/
theorem c6_witness :
    loadSavedFilesScan multiBase 7
      [(docKey multiBase "a", "\x7b\x7d"),
       (docKey multiBase "b", serializeContent "x" 5)] =
      Except.ok [⟨"a", Json.num 7⟩, ⟨"b", Json.num 5⟩] :=
  ((c6_listing_tolerance multiBase 7
      [(docKey multiBase "a", "\x7b\x7d"),
       (docKey multiBase "b", serializeContent "x" 5)]
      (by
        intro kv hkv hf
        simp at hkv
        rcases hkv with rfl | rfl <;> with_unfolding_all rfl)).1).trans
    (by with_unfolding_all rfl)

/-- C7: on a namespace holding `x` (modified at 2), `y` (at 1), `z` (at 3)
in that key order, the multi-content/ECharts listing returns most recent
first — `[z, x, y]` — but the file-list markdown editor's listing returns
`[x, y, z]` unchanged: its comparator reads `filename`, a field absent
from the records (they carry `name`), so every comparison is `NaN` and
the stable sort moves nothing, contradicting its own comment
"most recent first". -/
theorem c7_sort_divergence :
    loadSavedFilesMd 0
      [(docKey mdBase "x", serializeContent "" 2),
       (docKey mdBase "y", serializeContent "" 1),
       (docKey mdBase "z", serializeContent "" 3)] =
      Except.ok [⟨"x", Json.num 2⟩, ⟨"y", Json.num 1⟩, ⟨"z", Json.num 3⟩]
    ∧ loadSavedFilesSorted multiBase 0
      [(docKey multiBase "x", serializeContent "" 2),
       (docKey multiBase "y", serializeContent "" 1),
       (docKey multiBase "z", serializeContent "" 3)] =
      Except.ok [⟨"z", Json.num 3⟩, ⟨"x", Json.num 2⟩, ⟨"y", Json.num 1⟩] :=
  ⟨by with_unfolding_all rfl, by with_unfolding_all rfl⟩

/-- C8: a firing of the 30000 ms auto-save interval performs the redundant
write and surfaces the transient `Auto-saved!` status exactly when an
edit occurred within the last 30000 ms (otherwise it changes nothing);
and it is additional to the per-edit write-through, which persists the
raw text on every edit regardless of content.  (The document name must
differ from `last-filename`, whose key doubles as the last-used-name
record — see C10.) -/
theorem c8_autosave_tick (base : String) (st : AutoSaveSt) (now : Int)
    (hfn : st.filename ≠ "last-filename") :
    (now - st.lastEditTime < 30000 →
      autoSaveTick base st now =
        { st with store := setItem st.store (docKey base st.filename) (serializeContent st.text now),
                  saveStatus := "Auto-saved!",
                  pendingClears := st.pendingClears ++ [now + 2000] }
      ∧ getItem (autoSaveTick base st now).store (docKey base st.filename) =
          some (serializeContent st.text now))
    ∧ (¬ (now - st.lastEditTime < 30000) → autoSaveTick base st now = st)
    ∧ ∀ s, getItem (editStep base st s now).1.store (docKey base st.filename) =
        some (serializeContent s now) := by
  have hne : lastFilenameKey base ≠ docKey base st.filename := by
    rw [← docKey_lastFilename base]
    exact fun hh => hfn (docKey_inj hh).symm
  refine ⟨?_, ?_, ?_⟩
  · intro h
    constructor
    · simp [autoSaveTick, h]
    · simp [autoSaveTick, h, getItem_setItem_self]
  · intro h
    simp [autoSaveTick, h]
  · intro s
    unfold editStep perEditSave
    dsimp only
    cases hscan : loadSavedFilesScan base now
        (setItem (setItem st.store (docKey base st.filename) (serializeContent s now))
          (lastFilenameKey base) st.filename) with
    | error e =>
      dsimp only
      rw [getItem_setItem_ne _ _ hne, getItem_setItem_self]
    | ok files =>
      dsimp only
      rw [getItem_setItem_ne _ _ hne, getItem_setItem_self]

/-- Witness for C8: an interval firing at time 5 after an edit at time 0
auto-saves and surfaces the status; an edit write-through persists the
new text. -/
theorem c8_witness :
    (autoSaveTick mdBase ⟨"hello", "f", 0, "", [], [], []⟩ 5 =
      { text := "hello", filename := "f", lastEditTime := 0, saveStatus := "Auto-saved!",
        store := setItem [] (docKey mdBase "f") (serializeContent "hello" 5),
        savedFiles := [], pendingClears := [5 + 2000] }
      ∧ getItem (autoSaveTick mdBase ⟨"hello", "f", 0, "", [], [], []⟩ 5).store
          (docKey mdBase "f") = some (serializeContent "hello" 5))
    ∧ getItem (editStep mdBase ⟨"hello", "f", 0, "", [], [], []⟩ "bye" 5).1.store
        (docKey mdBase "f") = some (serializeContent "bye" 5) := by
  have h := c8_autosave_tick mdBase ⟨"hello", "f", 0, "", [], [], []⟩ 5 (by decide)
  exact ⟨h.1 (by decide), h.2.2 "bye"⟩

/-- C9 counterexample: in the multi-content editor's save effect the
`clearTimeout` cleanup closure is discarded, so after edits at times 0
and 1500 both clear timers (2000 and 3500) are pending — the earlier one
was not cancelled — and the stale timer firing at 2000 blanks the
`Saved!` status established at 1500 before its own clear time 3500. -/
theorem c9_counterexample :
    (editStep multiBase
        (editStep multiBase ⟨"", "f", 0, "", [], [], []⟩ "a" 0).1 "b" 1500).1.pendingClears
      = [2000, 3500]
    ∧ (editStep multiBase
        (editStep multiBase ⟨"", "f", 0, "", [], [], []⟩ "a" 0).1 "b" 1500).1.saveStatus
      = "Saved!"
    ∧ (statusClearFire (editStep multiBase
        (editStep multiBase ⟨"", "f", 0, "", [], [], []⟩ "a" 0).1 "b" 1500).1 2000).saveStatus
      = ""
    ∧ (statusClearFire (editStep multiBase
        (editStep multiBase ⟨"", "f", 0, "", [], [], []⟩ "a" 0).1 "b" 1500).1 2000).pendingClears
      = [3500] :=
  ⟨by with_unfolding_all rfl, by with_unfolding_all rfl,
   by with_unfolding_all rfl, by with_unfolding_all rfl⟩

/-- C9 (amended): only the plain markdown editor's save effect returns its
`clearTimeout` cleanup, so there a new clear timer replaces the pending
one and a stale deadline firing has no effect; the multi-content (and
file-list markdown / ECharts) save effects discard the cleanup closure,
so every save appends a new pending clear and earlier ones stay armed. -/
theorem c9_timer_cancellation (mdRender : String → String) (st : SimpleSt) (s : String)
    (now : Int) :
    (simpleEdit mdRender st s now).pendingClear = some (now + 2000)
    ∧ (∀ d, d ≠ now + 2000 →
        simpleFire (simpleEdit mdRender st s now) d = simpleEdit mdRender st s now)
    ∧ ∀ (st2 : AutoSaveSt) (s2 : String) (n2 : Int),
        (editStep multiBase st2 s2 n2).2 = none →
        (editStep multiBase st2 s2 n2).1.pendingClears = st2.pendingClears ++ [n2 + 2000] := by
  refine ⟨rfl, ?_, ?_⟩
  · intro d hd
    have hcond : ¬ ((simpleEdit mdRender st s now).pendingClear = some d) := by
      simp [simpleEdit, simpleSaveEffect]
      omega
    unfold simpleFire
    rw [if_neg hcond]
  · intro st2 s2 n2 hnone
    cases hscan : loadSavedFilesScan multiBase n2
        (setItem (setItem st2.store (docKey multiBase st2.filename) (serializeContent s2 n2))
          (lastFilenameKey multiBase) st2.filename) with
    | error e =>
      exfalso
      unfold editStep perEditSave at hnone
      dsimp only at hnone
      rw [hscan] at hnone
      simp at hnone
    | ok files =>
      unfold editStep perEditSave
      dsimp only
      rw [hscan]

/-- Witness for C9 (amended): a pending clear at 999 is replaced by the
edit's new deadline 2000 in the plain editor, a stale fire at 123 is a
no-op, and a multi-content save appends its deadline without cancelling. -/
theorem c9_cancellation_witness :
    (simpleEdit (fun s => s) ⟨"m", "f", "", "", [], some 999⟩ "x" 0).pendingClear
      = some (0 + 2000)
    ∧ simpleFire (simpleEdit (fun s => s) ⟨"m", "f", "", "", [], some 999⟩ "x" 0) 123
      = simpleEdit (fun s => s) ⟨"m", "f", "", "", [], some 999⟩ "x" 0
    ∧ (editStep multiBase ⟨"", "f", 0, "", [], [], [777]⟩ "a" 0).1.pendingClears
      = [777] ++ [0 + 2000] := by
  have h := c9_timer_cancellation (fun s => s) ⟨"m", "f", "", "", [], some 999⟩ "x" 0
  exact ⟨h.1, h.2.1 123 (by decide),
    h.2.2 ⟨"", "f", 0, "", [], [], [777]⟩ "a" 0 (by with_unfolding_all rfl)⟩
